import Mathlib

/-!
Verification of the decomposedfs `upload` package (reva): a shallow
embedding of `Upload.WriteChunk`, `Upload.FinishUpload`, `Upload.checkHash`,
`Upload.ConcatUploads`, `Upload.cleanup`, `Cleanup` and `Upload.Terminate`
as explicit state-passing functions, together with theorems about the
specified behaviour.

Bytes are modelled as `Nat` (values of Go `byte`), file contents as
`List Nat`, the filesystem / durable state visible to the upload engine as
an explicit record.  External collaborators (the crypto digests, the tree
backend, the event bus, the session store) are modelled as oracle outcomes
carried in environment records, mirroring how the Go code only observes
their returned errors.
-/

namespace Upload

/-- Errors observed by the upload engine.  `unexpectedEOF` models Go's
`io.ErrUnexpectedEOF`, `notExist` models `fs.ErrNotExist`,
`checksumMismatch` models `errtypes.ChecksumMismatch` carrying the expected
and the computed hex string. -/
inductive Err where
  | unexpectedEOF
  | notExist
  | checksumMismatch (expected : String) (got : String)
  | other (msg : String)
  deriving DecidableEq, Repr

/-- Log entries: the upload code logs (and swallows) errors at these
places. -/
inductive LogEntry where
  | openBinFailed
  | copyChecksumsFailed
  | removeNodeFailed
  | removeChildFailed
  | copyMetadataFailed
  | removeVersionFailed
  | removeBinFailed
  | purgeSessionFailed
  | unmarkProcessingFailed
  | finalizeFailed
  deriving DecidableEq, Repr

/-- Node attributes: an association list from attribute name to value,
newest entry first (a later set shadows an earlier one). -/
abbrev Attributes := List (String × List Nat)

/-- Look an attribute up by name (first match wins). -/
def attrGet : Attributes → String → Option (List Nat)
  | [], _ => none
  | (k, v) :: rest, key => if k = key then some v else attrGet rest key

/-- Attribute names are pairwise distinct. -/
def keysNodup (a : Attributes) : Prop := (a.map Prod.fst).Nodup

instance (a : Attributes) : Decidable (keysNodup a) := by
  unfold keysNodup; infer_instance

/-- Modelled from the spec: the attribute-name constants of the metadata
prefixes package (`prefixes.ChecksumPrefix`, `prefixes.TypeAttr`,
`prefixes.BlobIDAttr`, `prefixes.BlobsizeAttr`, `prefixes.MTimeAttr`),
whose definitions are not part of src; only their distinctness and the
checksum name pattern matter here. -/
def csPfx : String := "user.ocis.cs."

def typeAttr : String := "user.ocis.type"

def blobIDAttr : String := "user.ocis.blobid"

def blobsizeAttr : String := "user.ocis.blobsize"

def mtimeAttr : String := "user.ocis.mtime"

/-- Embedding of `strings.HasPrefix` over the characters of the two
strings. -/
def strHasPfx (p s : String) : Bool :=
  p.data.isPrefixOf s.data

/-- The filter closure passed to `CopyMetadata` in `Upload.cleanup`:
keep attributes carrying the checksum name pattern, the type, blob id,
blob size and modification time attributes. -/
def allowFilter (attributeName : String) (_value : List Nat) : Bool :=
  strHasPfx csPfx attributeName ||
    attributeName == typeAttr ||
    attributeName == blobIDAttr ||
    attributeName == blobsizeAttr ||
    attributeName == mtimeAttr

/-- Modelled from the spec: `lookup.CopyMetadata` (not in src) copies every
source attribute accepted by the filter onto the target node, leaving the
other target attributes unchanged. -/
def copyMetadata : Attributes → Attributes → (String → List Nat → Bool) → Attributes
  | [], tgt, _ => tgt
  | (k, v) :: rest, tgt, f =>
      copyMetadata rest (if f k v then (k, v) :: tgt else tgt) f

/-- The in-memory and durable state the upload engine observes: the session
offset, the staging file (`Session.BinPath`, `none` when absent), the
durable session record, the version snapshot (at `Session.VersionsPath`),
the live node on disk and its parent-directory link, the in-memory
`upload.Node` reference, the declared checksum expectations, and the
configuration flags read by `FinishUpload`. -/
structure UploadState where
  offset : Int := 0
  binFile : Option (List Nat) := some []
  sessionExists : Bool := true
  versionsPath : String := ""
  versionNode : Option Attributes := none
  nodeOnDisk : Option Attributes := none
  memNodeSet : Bool := false
  parentLink : Bool := true
  blobWritten : Bool := false
  propagateCalled : Bool := false
  processing : Bool := true
  checksumSHA1 : String := ""
  checksumMD5 : String := ""
  checksumADLER32 : String := ""
  pubConfigured : Bool := false
  async : Bool := true
  deriving DecidableEq, Repr

/-- How the source stream of one `WriteChunk` call ends after delivering
its bytes: normal end of stream (`io.Copy` returns a nil error), Go's
`io.ErrUnexpectedEOF`, or some other read error. -/
inductive StreamEnd where
  | eof
  | unexpectedEOF
  | failed (e : Err)
  deriving DecidableEq, Repr

/-- A source stream: the bytes it delivers before its end, and how it
ends. -/
structure ByteStream where
  data : List Nat
  ending : StreamEnd
  deriving DecidableEq, Repr

/-- Embedding of `Upload.WriteChunk`: open the staging file for append
(failing when it is absent), copy the stream into it, treat
`io.ErrUnexpectedEOF` as a normal end (returning a nil error and advancing
the session offset), return any other copy error unchanged together with
the byte count, without advancing the offset. -/
def writeChunk (s : UploadState) (src : ByteStream) :
    (Int × Option Err) × UploadState :=
  match s.binFile with
  | none => ((0, some Err.notExist), s)
  | some c =>
    let n : Int := (src.data.length : Int)
    let s1 := { s with binFile := some (c ++ src.data) }
    let err : Option Err :=
      match src.ending with
      | StreamEnd.eof => none
      | StreamEnd.unexpectedEOF => some Err.unexpectedEOF
      | StreamEnd.failed e => some e
    if err ≠ none ∧ err ≠ some Err.unexpectedEOF then
      ((n, err), s1)
    else
      ((n, none), { s1 with offset := s.offset + n })

/-- Lowercase hex digit, as Go's `encoding/hex` uses. -/
def hexDigit (n : Nat) : Char :=
  if n < 10 then Char.ofNat (48 + n) else Char.ofNat (87 + n)

/-- Two lowercase hex digits of one byte. -/
def hexByte (b : Nat) : List Char :=
  [hexDigit ((b / 16) % 16), hexDigit (b % 16)]

/-- Embedding of `hex.EncodeToString`: lowercase hex encoding of a byte
sequence. -/
def hexEncode (bs : List Nat) : String :=
  String.mk (bs.map hexByte).flatten

/-- Embedding of `Upload.checkHash`: hex-encode the computed digest and
compare it to the expected string with Go's `!=` (exact string
inequality); on mismatch return a checksum-mismatch error. -/
def checkHash (expected : String) (sum : List Nat) : Option Err :=
  let hsh := hexEncode sum
  if expected ≠ hsh then some (Err.checksumMismatch expected hsh) else none

/-- Embedding of the checksum-selection `switch` in `Upload.FinishUpload`:
check the SHA1 expectation when non-empty, otherwise the MD5 expectation
when non-empty, otherwise the ADLER32 expectation when non-empty. -/
def verifyChecksum (s : UploadState) (sha1d md5d adlerd : List Nat) : Option Err :=
  if s.checksumSHA1 ≠ "" then checkHash s.checksumSHA1 sha1d
  else if s.checksumMD5 ≠ "" then checkHash s.checksumMD5 md5d
  else if s.checksumADLER32 ≠ "" then checkHash s.checksumADLER32 adlerd
  else none

/-- Failure injection for the external calls `Upload.cleanup` makes
(`utils.RemoveItem`, `os.Remove` of the child entry, `lu.CopyMetadata`,
`os.RemoveAll` of the version path, `os.Remove` of the staging file,
`Session.Purge`, `Node.UnmarkProcessing`): `none` means the call succeeds,
`some e` that it fails with `e`. -/
structure CleanupEnv where
  removeItemErr : Option Err := none
  unlinkErr : Option Err := none
  copyMetaErr : Option Err := none
  removeVersionErr : Option Err := none
  binRemoveErr : Option Err := none
  purgeErr : Option Err := none
  unmarkErr : Option Err := none
  deriving DecidableEq, Repr

/-- The node branch of `Upload.cleanup`, entered when `cleanNode` is set
and `upload.Node` is non-nil.  With an empty `VersionsPath` it removes the
node and its parent child-entry (each failure only logged) and clears the
in-memory node reference; otherwise it copies the allow-listed attributes
from the version snapshot back onto the live node and removes the
snapshot (`os.RemoveAll` succeeds on an absent path). -/
def cleanupNodeStep (env : CleanupEnv) (s : UploadState) :
    UploadState × List LogEntry :=
  if s.memNodeSet then
    if s.versionsPath = "" then
      let (s1, l1) :=
        match env.removeItemErr with
        | some _ => (s, [LogEntry.removeNodeFailed])
        | none => ({ s with nodeOnDisk := none }, [])
      let (s2, l2) :=
        match env.unlinkErr with
        | some _ => (s1, [LogEntry.removeChildFailed])
        | none => ({ s1 with parentLink := false }, [])
      ({ s2 with memNodeSet := false }, l1 ++ l2)
    else
      let (s1, l1) :=
        match s.versionNode, s.nodeOnDisk, env.copyMetaErr with
        | some vs, some tgt, none =>
            ({ s with nodeOnDisk := some (copyMetadata vs tgt allowFilter) }, [])
        | _, _, _ => (s, [LogEntry.copyMetadataFailed])
      let (s2, l2) :=
        match env.removeVersionErr with
        | some _ => (s1, [LogEntry.removeVersionFailed])
        | none => ({ s1 with versionNode := none }, [])
      (s2, l1 ++ l2)
  else (s, [])

/-- The staging-file branch of `Upload.cleanup`: `os.Remove` on the
staging file; an `fs.ErrNotExist` outcome is filtered out and not even
logged, any other failure is logged and leaves the file in place. -/
def cleanupBinStep (env : CleanupEnv) (s : UploadState) :
    UploadState × List LogEntry :=
  match s.binFile with
  | none => (s, [])
  | some _ =>
    match env.binRemoveErr with
    | some e => (s, if e = Err.notExist then [] else [LogEntry.removeBinFailed])
    | none => ({ s with binFile := none }, [])

/-- The session-record branch of `Upload.cleanup`: `Session.Purge`; an
`fs.ErrNotExist` outcome is filtered out, any other failure is logged and
leaves the record in place. -/
def cleanupInfoStep (env : CleanupEnv) (s : UploadState) :
    UploadState × List LogEntry :=
  if s.sessionExists then
    match env.purgeErr with
    | some e => (s, if e = Err.notExist then [] else [LogEntry.purgeSessionFailed])
    | none => ({ s with sessionExists := false }, [])
  else (s, [])

/-- Embedding of `Upload.cleanup`: the three independent best-effort
steps, each guarded by its flag; no step returns an error to the
caller. -/
def cleanup (env : CleanupEnv) (cleanNode cleanBin cleanInfo : Bool)
    (s : UploadState) : UploadState × List LogEntry :=
  let r1 := if cleanNode then cleanupNodeStep env s else (s, [])
  let r2 := if cleanBin then cleanupBinStep env r1.1 else (r1.1, [])
  let r3 := if cleanInfo then cleanupInfoStep env r2.1 else (r2.1, [])
  (r3.1, r1.2 ++ r2.2 ++ r3.2)

/-- Embedding of the package-level `Cleanup` function: run
`upload.cleanup(failure, !keepUpload, !keepUpload)` and, when the node
reference is still set, unmark its processing status (an unmark failure is
only logged). -/
def cleanupUpper (env : CleanupEnv) (failure keepUpload : Bool)
    (s : UploadState) : UploadState × List LogEntry :=
  let r := cleanup env failure (!keepUpload) (!keepUpload) s
  if r.1.memNodeSet then
    match env.unmarkErr with
    | some _ => (r.1, r.2 ++ [LogEntry.unmarkProcessingFailed])
    | none => ({ r.1 with processing := false }, r.2)
  else (r.1, r.2)

/-- Embedding of `Upload.Terminate`: run full cleanup and return a nil
error. -/
def terminate (env : CleanupEnv) (s : UploadState) :
    Option Err × UploadState × List LogEntry :=
  let r := cleanup env true true true s
  (none, r.1, r.2)

/-- How reading one partial upload's staged content goes during
`ConcatUploads`: fully (`ok`), not at all (`openFail`), or failing after
`k` of its bytes were copied (`copyFail`). -/
inductive PartFail where
  | ok
  | openFail (e : Err)
  | copyFail (k : Nat) (e : Err)
  deriving DecidableEq, Repr

/-- One partial upload as `ConcatUploads` sees it: its full staged
content and how reading it goes. -/
structure PartSrc where
  content : List Nat
  fail : PartFail
  deriving DecidableEq, Repr

/-- The loop of `Upload.ConcatUploads`: append each part's staged content
to the accumulated destination content in order, stopping at the first
open or copy error (a copy error leaves the bytes copied so far
appended). -/
def concatGo (acc : List Nat) : List PartSrc → Option Err × List Nat
  | [] => (none, acc)
  | p :: rest =>
    match p.fail with
    | PartFail.ok => concatGo (acc ++ p.content) rest
    | PartFail.openFail e => (some e, acc)
    | PartFail.copyFail k e => (some e, acc ++ p.content.take k)

/-- Embedding of `Upload.ConcatUploads`: open the destination staging file
for append (failing when absent), then run the copy loop; returns the
propagated error (if any) and the final destination content. -/
def concatUploads (dest : Option (List Nat)) (parts : List PartSrc) :
    Option Err × Option (List Nat) :=
  match dest with
  | none => (some Err.notExist, none)
  | some d =>
    let (e, r) := concatGo d parts
    (e, some r)

/-- The first error the `ConcatUploads` loop hits. -/
def firstFailure : List PartSrc → Option Err
  | [] => none
  | p :: rest =>
    match p.fail with
    | PartFail.ok => firstFailure rest
    | PartFail.openFail e => some e
    | PartFail.copyFail _ e => some e

/-- Prefix relation on byte lists. -/
def isPref (a b : List Nat) : Prop := ∃ t, a ++ t = b

/-- Oracle outcomes for the external calls `FinishUpload` makes: the three
digest functions (crypto library code, out of scope), the result of
`CreateNodeForUpload`, `upload.URL`, `events.Publish`, `upload.Finalize`
and `tp.Propagate`, plus the cleanup failure injections. -/
structure FinishEnv where
  sha1 : List Nat → List Nat
  md5 : List Nat → List Nat
  adler32 : List Nat → List Nat
  createNodeErr : Option Err := none
  urlResult : Except Err String := Except.ok ""
  publishErr : Option Err := none
  finalizeErr : Option Err := none
  propagateErr : Option Err := none
  cenv : CleanupEnv := {}

/-- The attribute set `FinishUpload` builds from the three computed
digests. -/
def digestAttrs (env : FinishEnv) (content : List Nat) : Attributes :=
  [(csPfx ++ "sha1", env.sha1 content),
   (csPfx ++ "md5", env.md5 content),
   (csPfx ++ "adler32", env.adler32 content)]

/-- The tail of `FinishUpload` after the event-publication block: in
asynchronous mode propagate directly; in synchronous mode run `Finalize`,
then `Cleanup(upload, err != nil, false)`, return the finalize error if
any, otherwise propagate. -/
def finishTail (env : FinishEnv) (s1 : UploadState) :
    Option Err × UploadState × List LogEntry :=
  if s1.async then
    (env.propagateErr, { s1 with propagateCalled := true }, [])
  else
    match env.finalizeErr with
    | some e =>
      let r := cleanupUpper env.cenv true false s1
      (some e, r.1, r.2 ++ [LogEntry.finalizeFailed])
    | none =>
      let r := cleanupUpper env.cenv false false { s1 with blobWritten := true }
      (env.propagateErr, { r.1 with propagateCalled := true }, r.2)

/-- The part of `FinishUpload` after the node was committed: when an event
publisher is configured, resolve the signed URL and publish the
bytes-received event, returning either error immediately without any
cleanup; then continue with the tail. -/
def finishPostCreate (env : FinishEnv) (s1 : UploadState) :
    Option Err × UploadState × List LogEntry :=
  if s1.pubConfigured then
    match env.urlResult with
    | Except.error e => (some e, s1, [])
    | Except.ok _ =>
      match env.publishErr with
      | some e => (some e, s1, [])
      | none => finishTail env s1
  else finishTail env s1

/-- Embedding of `Upload.FinishUpload`: open the staging file (an open
failure is only logged and the digests are computed over the empty
stream), verify the selected declared checksum, on mismatch run
`Cleanup(upload, true, false)` and return the error; otherwise commit the
node carrying the digest attributes (`CreateNodeForUpload`, modelled from
the spec: on success the node exists with the digest attribute set, a
failure triggers the same failure cleanup), then run the
publication/finalize/propagate tail. -/
def finishUpload (env : FinishEnv) (s : UploadState) :
    Option Err × UploadState × List LogEntry :=
  let openLogs : List LogEntry :=
    match s.binFile with
    | some _ => []
    | none => [LogEntry.openBinFailed, LogEntry.copyChecksumsFailed]
  let content := s.binFile.getD []
  match verifyChecksum s (env.sha1 content) (env.md5 content) (env.adler32 content) with
  | some e =>
    let r := cleanupUpper env.cenv true false s
    (some e, r.1, openLogs ++ r.2)
  | none =>
    match env.createNodeErr with
    | some e =>
      let r := cleanupUpper env.cenv true false s
      (some e, r.1, openLogs ++ r.2)
    | none =>
      let s1 := { s with nodeOnDisk := some (digestAttrs env content),
                         memNodeSet := true }
      let r := finishPostCreate env s1
      (r.1, r.2.1, openLogs ++ r.2.2)

/-! Theorems -/

/-- Claim C1: a `WriteChunk` whose copy stops with `io.ErrUnexpectedEOF`
after `n` bytes returns `(n, nil)` with no cleanup (only the staging file
grew) and advances the in-memory session offset by exactly `n`; any other
copy error is returned unchanged together with the byte count. -/
theorem writeChunk_pause_C1 (s : UploadState) (c : List Nat) (src : ByteStream)
    (hbin : s.binFile = some c) :
    (src.ending = StreamEnd.unexpectedEOF →
      writeChunk s src = (((src.data.length : Int), none),
        { s with binFile := some (c ++ src.data),
                 offset := s.offset + (src.data.length : Int) }))
  ∧ (∀ e : Err, src.ending = StreamEnd.failed e → e ≠ Err.unexpectedEOF →
      writeChunk s src = (((src.data.length : Int), some e),
        { s with binFile := some (c ++ src.data) })) := by
  constructor
  · intro h
    simp [writeChunk, hbin, h]
  · intro e h hne
    simp [writeChunk, hbin, h, hne]

/-- Witness for C1 at concrete inputs. -/
theorem writeChunk_pause_C1_wit :
    writeChunk { } { data := [1, 2], ending := StreamEnd.unexpectedEOF } =
      ((2, none), { offset := 2, binFile := some [1, 2] }) ∧
    writeChunk { } { data := [9], ending := StreamEnd.failed (Err.other "io") } =
      ((1, some (Err.other "io")), { binFile := some [9] }) := by
  constructor
  · have h := (writeChunk_pause_C1 { } []
      { data := [1, 2], ending := StreamEnd.unexpectedEOF } rfl).1 rfl
    simpa using h
  · have h := (writeChunk_pause_C1 { } []
      { data := [9], ending := StreamEnd.failed (Err.other "io") } rfl).2
      (Err.other "io") rfl (by decide)
    simpa using h

/-- Claim C6 counterexample: a `WriteChunk` call that returns a non-pause
I/O error with a positive byte count leaves the staging area one byte
longer while the session offset stays 0, so the offset does not equal the
number of bytes appended at that observation point. -/
theorem writeChunk_offset_C6_cex :
    (writeChunk { } { data := [7], ending := StreamEnd.failed (Err.other "io") }).1 =
      (1, some (Err.other "io")) ∧
    (writeChunk { } { data := [7], ending := StreamEnd.failed (Err.other "io") }).2.binFile =
      some [7] ∧
    (writeChunk { } { data := [7], ending := StreamEnd.failed (Err.other "io") }).2.offset =
      0 ∧
    (0 : Int) ≠ 1 := by
  refine ⟨by decide, by decide, by decide, by decide⟩

/-- Claim C6 amended: after every `WriteChunk` that returns a nil error
(normal end or pause) the session offset equals the staging-file length;
after a call returning a non-pause error with `n` bytes written, the
staging area grew by `n` while the offset is unchanged, so offset plus the
returned count equals the staging length. -/
theorem writeChunk_offset_C6_amended (s : UploadState) (c : List Nat)
    (src : ByteStream) (hbin : s.binFile = some c)
    (hinv : s.offset = (c.length : Int)) :
    ((writeChunk s src).1.2 = none →
      (writeChunk s src).2.offset =
        ((((writeChunk s src).2.binFile.getD []).length : Int)))
  ∧ (∀ e, (writeChunk s src).1.2 = some e →
      (writeChunk s src).2.offset + (writeChunk s src).1.1 =
        ((((writeChunk s src).2.binFile.getD []).length : Int))) := by
  obtain ⟨data, ending⟩ := src
  cases ending with
  | eof =>
    constructor
    · intro _
      simp [writeChunk, hbin, hinv]
    · intro e he
      simp [writeChunk, hbin] at he
  | unexpectedEOF =>
    constructor
    · intro _
      simp [writeChunk, hbin, hinv]
    · intro e he
      simp [writeChunk, hbin] at he
  | failed e0 =>
    by_cases h0 : e0 = Err.unexpectedEOF
    · subst h0
      constructor
      · intro _
        simp [writeChunk, hbin, hinv]
      · intro e he
        simp [writeChunk, hbin] at he
    · constructor
      · intro hnone
        simp [writeChunk, hbin, h0] at hnone
      · intro e he
        simp [writeChunk, hbin, h0, hinv]

/-- Witness for the amended C6 at concrete inputs. -/
theorem writeChunk_offset_C6_amended_wit :
    ((writeChunk { } { data := [7], ending := StreamEnd.failed (Err.other "io") }).2.offset +
      (writeChunk { } { data := [7], ending := StreamEnd.failed (Err.other "io") }).1.1 =
      ((((writeChunk { } { data := [7], ending := StreamEnd.failed (Err.other "io") }).2.binFile.getD []).length : Int))) := by
  exact (writeChunk_offset_C6_amended { } []
    { data := [7], ending := StreamEnd.failed (Err.other "io") } rfl rfl).2
    (Err.other "io") (by decide)

/-- Claim C3 counterexample: the expected value "AB" differs from the
computed hex encoding "ab" of the digest byte 0xab only in letter case,
yet `checkHash` rejects it with a checksum-mismatch error, because the
comparison is Go's exact string inequality, not case-insensitive. -/
theorem checkHash_case_C3_cex :
    "AB".data.map Char.toLower = (hexEncode [171]).data ∧
    "AB" ≠ hexEncode [171] ∧
    checkHash "AB" [171] = some (Err.checksumMismatch "AB" "ab") := by
  refine ⟨by decide, by decide, by decide⟩

/-- Claim C3 amended: the comparison `FinishUpload` performs through
`checkHash` is exact (case-sensitive): a declared expected value passes
verification precisely when it equals the lowercase hex encoding of the
computed digest, so a value differing only in letter case fails. -/
theorem checkHash_exact_C3_amended (expected : String) (d : List Nat) :
    checkHash expected d = none ↔ expected = hexEncode d := by
  unfold checkHash
  by_cases h : expected = hexEncode d <;> simp [h]

/-- Helper: the concatenation loop over fully readable parts appends
exactly the parts' contents in order. -/
theorem concatGo_all_ok (parts : List PartSrc) :
    ∀ acc : List Nat, (∀ p ∈ parts, p.fail = PartFail.ok) →
      concatGo acc parts = (none, acc ++ (parts.map PartSrc.content).flatten) := by
  induction parts with
  | nil => intro acc _; simp [concatGo]
  | cons p rest ih =>
    intro acc h
    have hp : p.fail = PartFail.ok := h p (List.mem_cons_self p rest)
    rw [concatGo, hp]
    rw [ih (acc ++ p.content) (fun q hq => h q (List.mem_cons_of_mem p hq))]
    simp

/-- Helper: whatever happens, the destination ends up holding a prefix of
the intended appended content. -/
theorem concatGo_pref (parts : List PartSrc) :
    ∀ acc : List Nat,
      isPref (concatGo acc parts).2 (acc ++ (parts.map PartSrc.content).flatten) := by
  induction parts with
  | nil => intro acc; exact ⟨[], by simp [concatGo]⟩
  | cons p rest ih =>
    intro acc
    rcases hf : p.fail with _ | e | ⟨k, e⟩
    · have h := ih (acc ++ p.content)
      rw [concatGo, hf]
      simpa using h
    · refine ⟨p.content ++ (rest.map PartSrc.content).flatten, ?_⟩
      rw [concatGo, hf]
      simp
    · refine ⟨p.content.drop k ++ (rest.map PartSrc.content).flatten, ?_⟩
      rw [concatGo, hf]
      simp only [List.append_assoc]
      rw [← List.append_assoc (p.content.take k)]
      simp

/-- Helper: the loop propagates the first open/copy error unchanged. -/
theorem concatGo_err (parts : List PartSrc) :
    ∀ acc : List Nat, (concatGo acc parts).1 = firstFailure parts := by
  induction parts with
  | nil => intro acc; simp [concatGo, firstFailure]
  | cons p rest ih =>
    intro acc
    rcases hf : p.fail with _ | e | ⟨k, e⟩ <;>
      simp [concatGo, firstFailure, hf, ih]

/-- Claim C4: `ConcatUploads` appends to the destination exactly the
concatenation of the parts' staged contents in the caller-given order;
with two parts the output is `content(A)` then `content(B)` and swapping
them changes the output whenever the concatenations differ; on a partial
failure the destination holds a prefix of the intended content and the
error is propagated unchanged. -/
theorem concatUploads_order_C4 (d : List Nat) (parts : List PartSrc) :
    ((∀ p ∈ parts, p.fail = PartFail.ok) →
      concatUploads (some d) parts =
        (none, some (d ++ (parts.map PartSrc.content).flatten)))
  ∧ (∀ A B : List Nat,
      (concatUploads (some d) [⟨A, PartFail.ok⟩, ⟨B, PartFail.ok⟩]).2 =
        some (d ++ (A ++ B)))
  ∧ (∀ A B : List Nat, A ++ B ≠ B ++ A →
      (concatUploads (some d) [⟨A, PartFail.ok⟩, ⟨B, PartFail.ok⟩]).2 ≠
        (concatUploads (some d) [⟨B, PartFail.ok⟩, ⟨A, PartFail.ok⟩]).2)
  ∧ (∀ r : List Nat, (concatUploads (some d) parts).2 = some r →
      isPref r (d ++ (parts.map PartSrc.content).flatten))
  ∧ (concatUploads (some d) parts).1 = firstFailure parts := by
  refine ⟨?_, ?_, ?_, ?_, ?_⟩
  · intro h
    simp [concatUploads, concatGo_all_ok parts d h]
  · intro A B
    simp [concatUploads, concatGo]
  · intro A B hne
    simp only [concatUploads, concatGo, Option.some.injEq, ne_eq]
    intro h
    have h2 : d ++ (A ++ B) = d ++ (B ++ A) := by
      simpa [List.append_assoc] using h
    exact hne (List.append_cancel_left h2)
  · intro r hr
    have h := concatGo_pref parts d
    simp only [concatUploads] at hr
    have hr2 : (concatGo d parts).2 = r := Option.some.inj hr
    rw [hr2] at h
    exact h
  · simp [concatUploads, concatGo_err parts d]

/-- Witness for C4 at concrete inputs. -/
theorem concatUploads_order_C4_wit :
    concatUploads (some [0]) [⟨[1], PartFail.ok⟩, ⟨[2, 3], PartFail.ok⟩] =
      (none, some [0, 1, 2, 3]) ∧
    (concatUploads (some []) [⟨[1], PartFail.ok⟩, ⟨[2], PartFail.ok⟩]).2 ≠
      (concatUploads (some []) [⟨[2], PartFail.ok⟩, ⟨[1], PartFail.ok⟩]).2 ∧
    isPref [5] [5, 6] ∧
    (concatUploads (some []) [⟨[5, 6], PartFail.copyFail 1 (Err.other "x")⟩]).1 =
      some (Err.other "x") := by
  refine ⟨?_, ?_, ?_, ?_⟩
  · simpa using
      (concatUploads_order_C4 [0] [⟨[1], PartFail.ok⟩, ⟨[2, 3], PartFail.ok⟩]).1
        (by decide)
  · exact (concatUploads_order_C4 [] []).2.2.1 [1] [2] (by decide)
  · simpa using
      (concatUploads_order_C4 []
        [⟨[5, 6], PartFail.copyFail 1 (Err.other "x")⟩]).2.2.2.1 [5] (by decide)
  · simpa using
      (concatUploads_order_C4 []
        [⟨[5, 6], PartFail.copyFail 1 (Err.other "x")⟩]).2.2.2.2

/-- Helper: a key that is not among an attribute list's names looks up to
`none`. -/
theorem attrGet_not_mem (a : Attributes) (k : String)
    (h : k ∉ a.map Prod.fst) : attrGet a k = none := by
  induction a with
  | nil => rfl
  | cons kv rest ih =>
    obtain ⟨k0, v0⟩ := kv
    simp only [List.map_cons, List.mem_cons] at h
    push_neg at h
    obtain ⟨h1, h2⟩ := h
    rw [attrGet, if_neg (fun hh => h1 hh.symm), ih h2]

/-- Helper: what `copyMetadata` does to every single attribute of the
target, when the source attribute names are distinct: a source attribute
accepted by the filter is copied, everything else is the target's own
value. -/
theorem copyMetadata_attrGet (f : String → List Nat → Bool) :
    ∀ (vs tgt : Attributes), keysNodup vs → ∀ k : String,
      attrGet (copyMetadata vs tgt f) k =
        (match attrGet vs k with
         | some v => if f k v then some v else attrGet tgt k
         | none => attrGet tgt k) := by
  intro vs
  induction vs with
  | nil => intro tgt _ k; simp [copyMetadata, attrGet]
  | cons kv rest ih =>
    intro tgt hnd k
    obtain ⟨k0, v0⟩ := kv
    have hnd' : (k0 :: rest.map Prod.fst).Nodup := by
      simpa [keysNodup] using hnd
    have hnd0 := List.nodup_cons.mp hnd'
    have hnd2 : keysNodup rest := hnd0.2
    have hnm : k0 ∉ rest.map Prod.fst := hnd0.1
    rw [copyMetadata, ih _ hnd2 k]
    by_cases hk : k0 = k
    · subst hk
      rw [attrGet_not_mem rest k0 hnm]
      by_cases hf : f k0 v0 <;> simp [hf, attrGet]
    · by_cases hf : f k0 v0 <;> simp [hf, attrGet, hk]

/-- Helper: the node-cleanup step for a versioned upload with both the
snapshot and the live node present and no injected failures: the live
node becomes the filtered copy-back, the snapshot is removed, nothing is
logged. -/
theorem cleanupNodeStep_versioned (env : CleanupEnv) (s : UploadState)
    (vs tgt : Attributes)
    (hvp : s.versionsPath ≠ "") (hmem : s.memNodeSet = true)
    (hvs : s.versionNode = some vs) (hnd : s.nodeOnDisk = some tgt)
    (hcm : env.copyMetaErr = none) (hrv : env.removeVersionErr = none) :
    cleanupNodeStep env s =
      ({ s with nodeOnDisk := some (copyMetadata vs tgt allowFilter),
                versionNode := none }, []) := by
  simp [cleanupNodeStep, hmem, hvp, hvs, hnd, hcm, hrv]

/-- Helper: the staging-file step never touches the node, the snapshot or
the session record. -/
theorem cleanupBinStep_frame (env : CleanupEnv) (s : UploadState) :
    (cleanupBinStep env s).1.versionNode = s.versionNode ∧
    (cleanupBinStep env s).1.nodeOnDisk = s.nodeOnDisk ∧
    (cleanupBinStep env s).1.sessionExists = s.sessionExists := by
  rcases hb : s.binFile with _ | c <;> rcases he : env.binRemoveErr with _ | e <;>
    simp [cleanupBinStep, hb, he]

/-- Helper: the session-record step never touches the node, the snapshot
or the staging file. -/
theorem cleanupInfoStep_frame (env : CleanupEnv) (s : UploadState) :
    (cleanupInfoStep env s).1.versionNode = s.versionNode ∧
    (cleanupInfoStep env s).1.nodeOnDisk = s.nodeOnDisk ∧
    (cleanupInfoStep env s).1.binFile = s.binFile := by
  rcases hi : s.sessionExists with _ | _ <;> rcases he : env.purgeErr with _ | e <;>
    simp [cleanupInfoStep, hi, he]

/-- Helper: the node-cleanup step never touches the staging file or the
session record. -/
theorem cleanupNodeStep_frame (env : CleanupEnv) (s : UploadState) :
    (cleanupNodeStep env s).1.sessionExists = s.sessionExists ∧
    (cleanupNodeStep env s).1.binFile = s.binFile := by
  unfold cleanupNodeStep
  rcases hm : s.memNodeSet with _ | _
  · simp
  · by_cases hv : s.versionsPath = ""
    · simp only [hv, if_true, if_pos]
      rcases env.removeItemErr with _ | e1 <;> rcases env.unlinkErr with _ | e2 <;> simp
    · simp only [hv, if_neg, if_true]
      rcases s.versionNode with _ | vs <;> rcases s.nodeOnDisk with _ | nd <;>
        rcases env.copyMetaErr with _ | e3 <;> rcases env.removeVersionErr with _ | e4 <;>
          simp

theorem cleanupBinStep_versionNode (env : CleanupEnv) (s : UploadState) :
    (cleanupBinStep env s).1.versionNode = s.versionNode :=
  (cleanupBinStep_frame env s).1

theorem cleanupBinStep_nodeOnDisk (env : CleanupEnv) (s : UploadState) :
    (cleanupBinStep env s).1.nodeOnDisk = s.nodeOnDisk :=
  (cleanupBinStep_frame env s).2.1

theorem cleanupBinStep_sessionExists (env : CleanupEnv) (s : UploadState) :
    (cleanupBinStep env s).1.sessionExists = s.sessionExists :=
  (cleanupBinStep_frame env s).2.2

theorem cleanupInfoStep_versionNode (env : CleanupEnv) (s : UploadState) :
    (cleanupInfoStep env s).1.versionNode = s.versionNode :=
  (cleanupInfoStep_frame env s).1

theorem cleanupInfoStep_nodeOnDisk (env : CleanupEnv) (s : UploadState) :
    (cleanupInfoStep env s).1.nodeOnDisk = s.nodeOnDisk :=
  (cleanupInfoStep_frame env s).2.1

theorem cleanupNodeStep_sessionExists (env : CleanupEnv) (s : UploadState) :
    (cleanupNodeStep env s).1.sessionExists = s.sessionExists :=
  (cleanupNodeStep_frame env s).1

theorem cleanupBinStep_memNodeSet (env : CleanupEnv) (s : UploadState) :
    (cleanupBinStep env s).1.memNodeSet = s.memNodeSet := by
  rcases hb : s.binFile with _ | c <;> rcases he : env.binRemoveErr with _ | e <;>
    simp [cleanupBinStep, hb, he]

theorem cleanupInfoStep_memNodeSet (env : CleanupEnv) (s : UploadState) :
    (cleanupInfoStep env s).1.memNodeSet = s.memNodeSet := by
  rcases hi : s.sessionExists with _ | _ <;> rcases he : env.purgeErr with _ | e <;>
    simp [cleanupInfoStep, hi, he]

/-- Helper: with no injected removal failure the staging-file step leaves
no staging file behind. -/
theorem cleanupBinStep_removes (env : CleanupEnv) (s : UploadState)
    (h : env.binRemoveErr = none) : (cleanupBinStep env s).1.binFile = none := by
  rcases hb : s.binFile with _ | c <;> simp [cleanupBinStep, hb, h]

/-- Helper: with no injected purge failure the session-record step leaves
no session record behind. -/
theorem cleanupInfoStep_purges (env : CleanupEnv) (s : UploadState)
    (h : env.purgeErr = none) : (cleanupInfoStep env s).1.sessionExists = false := by
  rcases hi : s.sessionExists with _ | _ <;> simp [cleanupInfoStep, hi, h]

/-- Claim C7: failure cleanup of a versioned upload copies back from the
version snapshot onto the live node exactly the attributes accepted by
the allow-list filter (checksum name pattern, type, blob id, blob size,
modification time), leaves every other live-node attribute unchanged, and
removes the version snapshot. -/
theorem cleanup_versioned_C7 (env : CleanupEnv) (cb ci : Bool)
    (s : UploadState) (vs tgt : Attributes) (hnodup : keysNodup vs)
    (hvp : s.versionsPath ≠ "") (hmem : s.memNodeSet = true)
    (hvs : s.versionNode = some vs) (hnd : s.nodeOnDisk = some tgt)
    (hcm : env.copyMetaErr = none) (hrv : env.removeVersionErr = none) :
    (cleanup env true cb ci s).1.versionNode = none
  ∧ (cleanup env true cb ci s).1.nodeOnDisk =
      some (copyMetadata vs tgt allowFilter)
  ∧ (∀ k, attrGet vs k = none →
      attrGet (copyMetadata vs tgt allowFilter) k = attrGet tgt k)
  ∧ (∀ k v, attrGet vs k = some v → allowFilter k v = true →
      attrGet (copyMetadata vs tgt allowFilter) k = some v)
  ∧ (∀ k v, attrGet vs k = some v → allowFilter k v = false →
      attrGet (copyMetadata vs tgt allowFilter) k = attrGet tgt k) := by
  have hstep := cleanupNodeStep_versioned env s vs tgt hvp hmem hvs hnd hcm hrv
  have hget := copyMetadata_attrGet allowFilter vs tgt hnodup
  refine ⟨?_, ?_, ?_, ?_, ?_⟩
  · cases cb <;> cases ci <;>
      simp [cleanup, hstep, cleanupBinStep_versionNode, cleanupInfoStep_versionNode]
  · cases cb <;> cases ci <;>
      simp [cleanup, hstep, cleanupBinStep_nodeOnDisk, cleanupInfoStep_nodeOnDisk]
  · intro k hk
    rw [hget k, hk]
  · intro k v hk hf
    rw [hget k, hk]
    simp [hf]
  · intro k v hk hf
    rw [hget k, hk]
    simp [hf]

/-- Witness for C7 at concrete inputs: a snapshot holding a checksum
attribute, the type attribute and an unrelated attribute; the unrelated
one is not copied, the allow-listed ones are, the snapshot is gone. -/
theorem cleanup_versioned_C7_wit :
    ((cleanup { } true true true
        { versionsPath := "v1", memNodeSet := true,
          versionNode := some [(csPfx ++ "sha1", [1]), (typeAttr, [2]), ("user.extra", [3])],
          nodeOnDisk := some [("user.other", [9])] }).1.versionNode = none)
  ∧ ((cleanup { } true true true
        { versionsPath := "v1", memNodeSet := true,
          versionNode := some [(csPfx ++ "sha1", [1]), (typeAttr, [2]), ("user.extra", [3])],
          nodeOnDisk := some [("user.other", [9])] }).1.nodeOnDisk =
      some (copyMetadata [(csPfx ++ "sha1", [1]), (typeAttr, [2]), ("user.extra", [3])]
        [("user.other", [9])] allowFilter))
  ∧ attrGet (copyMetadata [(csPfx ++ "sha1", [1]), (typeAttr, [2]), ("user.extra", [3])]
      [("user.other", [9])] allowFilter) (csPfx ++ "sha1") = some [1]
  ∧ attrGet (copyMetadata [(csPfx ++ "sha1", [1]), (typeAttr, [2]), ("user.extra", [3])]
      [("user.other", [9])] allowFilter) "user.extra" =
      attrGet [("user.other", [9])] "user.extra"
  ∧ attrGet (copyMetadata [(csPfx ++ "sha1", [1]), (typeAttr, [2]), ("user.extra", [3])]
      [("user.other", [9])] allowFilter) "user.other" =
      attrGet [("user.other", [9])] "user.other" := by
  have h := cleanup_versioned_C7 { } true true
    { versionsPath := "v1", memNodeSet := true,
      versionNode := some [(csPfx ++ "sha1", [1]), (typeAttr, [2]), ("user.extra", [3])],
      nodeOnDisk := some [("user.other", [9])] }
    [(csPfx ++ "sha1", [1]), (typeAttr, [2]), ("user.extra", [3])]
    [("user.other", [9])]
    (by decide) (by decide) rfl rfl rfl rfl rfl
  exact ⟨h.1, h.2.1,
    h.2.2.2.1 (csPfx ++ "sha1") [1] (by decide) (by decide),
    h.2.2.2.2 "user.extra" [3] (by decide) (by decide),
    h.2.2.1 "user.other" (by decide)⟩

/-- Claim C8: every cleanup step is best-effort — `Terminate` returns a
nil error for every state and every combination of injected step
failures; a failing purge is only logged; and running cleanup on a state
whose staging file and session record are already absent (and whose node
reference is cleared) changes nothing and logs nothing. -/
theorem cleanup_besteffort_C8 (env : CleanupEnv) (s : UploadState) :
    (terminate env s).1 = none
  ∧ (s.binFile = none → s.sessionExists = false → s.memNodeSet = false →
      ∀ cn cb ci, cleanup env cn cb ci s = (s, []))
  ∧ (∀ e, env.purgeErr = some e → e ≠ Err.notExist → s.sessionExists = true →
      LogEntry.purgeSessionFailed ∈ (terminate env s).2.2) := by
  refine ⟨rfl, ?_, ?_⟩
  · intro hb hi hm cn cb ci
    have h1 : cleanupNodeStep env s = (s, []) := by
      simp [cleanupNodeStep, hm]
    have h2 : cleanupBinStep env s = (s, []) := by
      simp [cleanupBinStep, hb]
    have h3 : cleanupInfoStep env s = (s, []) := by
      simp [cleanupInfoStep, hi]
    cases cn <;> cases cb <;> cases ci <;> simp [cleanup, h1, h2, h3]
  · intro e he hne hse
    have hs1 : (cleanupNodeStep env s).1.sessionExists = true := by
      rw [cleanupNodeStep_sessionExists]; exact hse
    have hs2 : (cleanupBinStep env (cleanupNodeStep env s).1).1.sessionExists = true := by
      rw [cleanupBinStep_sessionExists]; exact hs1
    have h3 : (cleanupInfoStep env
        ((cleanupBinStep env (cleanupNodeStep env s).1).1)).2 =
        [LogEntry.purgeSessionFailed] := by
      simp [cleanupInfoStep, hs2, he, hne]
    simp [terminate, cleanup, h3]

/-- Witness for C8 at concrete inputs. -/
theorem cleanup_besteffort_C8_wit :
    (terminate { purgeErr := some (Err.other "db") } { }).1 = none
  ∧ LogEntry.purgeSessionFailed ∈
      (terminate { purgeErr := some (Err.other "db") } { }).2.2
  ∧ cleanup { } true true true { binFile := none, sessionExists := false } =
      ({ binFile := none, sessionExists := false }, []) := by
  refine ⟨(cleanup_besteffort_C8 { purgeErr := some (Err.other "db") } { }).1,
    (cleanup_besteffort_C8 { purgeErr := some (Err.other "db") } { }).2.2
      (Err.other "db") rfl (by decide) rfl,
    (cleanup_besteffort_C8 { } { binFile := none, sessionExists := false }).2.1
      rfl rfl rfl true true true⟩

/-- Helper: the error component of the finalize/propagate tail depends
only on the async flag and the environment. -/
theorem finishTail_fst (env : FinishEnv) (x : UploadState) :
    (finishTail env x).1 =
      (if x.async then env.propagateErr
       else
        match env.finalizeErr with
        | some e => some e
        | none => env.propagateErr) := by
  rcases hx : x.async with _ | _ <;> rcases hf : env.finalizeErr with _ | e <;>
    simp [finishTail, hx, hf]

/-- Helper: the error component of the post-commit phase depends only on
the publisher and async flags and the environment. -/
theorem finishPostCreate_fst (env : FinishEnv) (x : UploadState) :
    (finishPostCreate env x).1 =
      (if x.pubConfigured then
        match env.urlResult with
        | Except.error e => some e
        | Except.ok _ =>
          match env.publishErr with
          | some e => some e
          | none => (finishTail env x).1
       else (finishTail env x).1) := by
  rcases hp : x.pubConfigured with _ | _ <;>
    rcases hu : env.urlResult with e | u <;>
      rcases he : env.publishErr with _ | e2 <;>
        simp [finishPostCreate, hp, hu, he]

/-- Claim C2: `FinishUpload` verifies at most one declared checksum, in
the fixed priority order SHA1, then MD5, then ADLER32: with a non-empty
SHA1 expectation the verification outcome is exactly the SHA1 comparison,
and blanking the MD5 and ADLER32 expectations cannot change the error
`FinishUpload` returns — in particular a mismatched MD5 expectation never
fails an upload whose SHA1 expectation is set and matches. -/
theorem finishUpload_priority_C2 (env : FinishEnv) (s : UploadState)
    (a b c : List Nat) (h : s.checksumSHA1 ≠ "") :
    verifyChecksum s a b c = checkHash s.checksumSHA1 a
  ∧ (finishUpload env s).1 =
      (finishUpload env { s with checksumMD5 := "", checksumADLER32 := "" }).1 := by
  refine ⟨by simp [verifyChecksum, h], ?_⟩
  have hv1 : ∀ x y z : List Nat, verifyChecksum s x y z = checkHash s.checksumSHA1 x := by
    intro x y z; simp [verifyChecksum, h]
  have hv2 : ∀ x y z : List Nat,
      verifyChecksum { s with checksumMD5 := "", checksumADLER32 := "" } x y z =
        checkHash s.checksumSHA1 x := by
    intro x y z; simp [verifyChecksum, h]
  rcases hch : checkHash s.checksumSHA1 (env.sha1 (s.binFile.getD [])) with _ | e
  · rcases hcn : env.createNodeErr with _ | e2
    · simp [finishUpload, hv1, hv2, hch, hcn, finishPostCreate_fst, finishTail_fst]
    · simp [finishUpload, hv1, hv2, hch, hcn]
  · simp [finishUpload, hv1, hv2, hch]

/-- Witness for C2 at concrete inputs: a matching SHA1 expectation with a
simultaneously set, mismatched MD5 expectation. -/
theorem finishUpload_priority_C2_wit :
    verifyChecksum { checksumSHA1 := "00", checksumMD5 := "bad" } [0] [1] [2] =
      checkHash "00" [0]
  ∧ (finishUpload
      { sha1 := fun _ => [0], md5 := fun _ => [1], adler32 := fun _ => [2] }
      { checksumSHA1 := "00", checksumMD5 := "bad" }).1 =
    (finishUpload
      { sha1 := fun _ => [0], md5 := fun _ => [1], adler32 := fun _ => [2] }
      { ({ checksumSHA1 := "00", checksumMD5 := "bad" } : UploadState) with
        checksumMD5 := "", checksumADLER32 := "" }).1 := by
  exact finishUpload_priority_C2
    { sha1 := fun _ => [0], md5 := fun _ => [1], adler32 := fun _ => [2] }
    { checksumSHA1 := "00", checksumMD5 := "bad" } [0] [1] [2] (by decide)

/-- Claim C5: a checksum mismatch makes `FinishUpload` return the
checksum-mismatch error, and afterwards no node exists (none was
created), the staging file is removed and the session record is purged. -/
theorem finishUpload_mismatch_C5 (env : FinishEnv) (s : UploadState)
    (hm : s.memNodeSet = false) (hd : s.nodeOnDisk = none)
    (hs : s.checksumSHA1 ≠ "")
    (hmis : s.checksumSHA1 ≠ hexEncode (env.sha1 (s.binFile.getD [])))
    (hbe : env.cenv.binRemoveErr = none) (hpe : env.cenv.purgeErr = none) :
    (finishUpload env s).1 =
      some (Err.checksumMismatch s.checksumSHA1
        (hexEncode (env.sha1 (s.binFile.getD []))))
  ∧ (finishUpload env s).2.1.nodeOnDisk = none
  ∧ (finishUpload env s).2.1.memNodeSet = false
  ∧ (finishUpload env s).2.1.binFile = none
  ∧ (finishUpload env s).2.1.sessionExists = false := by
  have hv : verifyChecksum s (env.sha1 (s.binFile.getD []))
      (env.md5 (s.binFile.getD [])) (env.adler32 (s.binFile.getD [])) =
      some (Err.checksumMismatch s.checksumSHA1
        (hexEncode (env.sha1 (s.binFile.getD [])))) := by
    simp [verifyChecksum, checkHash, hs, hmis]
  have hns : cleanupNodeStep env.cenv s = (s, []) := by
    simp [cleanupNodeStep, hm]
  have h1 : (cleanup env.cenv true true true s).1 =
      (cleanupInfoStep env.cenv (cleanupBinStep env.cenv s).1).1 := by
    simp [cleanup, hns]
  have hmem2 : (cleanup env.cenv true true true s).1.memNodeSet = false := by
    rw [h1, cleanupInfoStep_memNodeSet, cleanupBinStep_memNodeSet, hm]
  have hnd2 : (cleanup env.cenv true true true s).1.nodeOnDisk = none := by
    rw [h1, cleanupInfoStep_nodeOnDisk, cleanupBinStep_nodeOnDisk, hd]
  have hbf2 : (cleanup env.cenv true true true s).1.binFile = none := by
    rw [h1, (cleanupInfoStep_frame env.cenv _).2.2,
      cleanupBinStep_removes env.cenv s hbe]
  have hse2 : (cleanup env.cenv true true true s).1.sessionExists = false := by
    rw [h1, cleanupInfoStep_purges env.cenv _ hpe]
  have hcu : cleanupUpper env.cenv true false s =
      ((cleanup env.cenv true true true s).1,
       (cleanup env.cenv true true true s).2) := by
    simp [cleanupUpper, hmem2]
  refine ⟨?_, ?_, ?_, ?_, ?_⟩ <;>
    simp [finishUpload, hv, hcu, hmem2, hnd2, hbf2, hse2]

/-- Witness for C5 at concrete inputs. -/
theorem finishUpload_mismatch_C5_wit :
    ((finishUpload
        { sha1 := fun _ => [0], md5 := fun _ => [], adler32 := fun _ => [] }
        { checksumSHA1 := "ffff" }).1 =
      some (Err.checksumMismatch "ffff" "00"))
  ∧ (finishUpload
        { sha1 := fun _ => [0], md5 := fun _ => [], adler32 := fun _ => [] }
        { checksumSHA1 := "ffff" }).2.1.nodeOnDisk = none
  ∧ (finishUpload
        { sha1 := fun _ => [0], md5 := fun _ => [], adler32 := fun _ => [] }
        { checksumSHA1 := "ffff" }).2.1.binFile = none
  ∧ (finishUpload
        { sha1 := fun _ => [0], md5 := fun _ => [], adler32 := fun _ => [] }
        { checksumSHA1 := "ffff" }).2.1.sessionExists = false := by
  have h := finishUpload_mismatch_C5
    { sha1 := fun _ => [0], md5 := fun _ => [], adler32 := fun _ => [] }
    { checksumSHA1 := "ffff" } rfl rfl (by decide) (by decide) rfl rfl
  exact ⟨h.1, h.2.1, h.2.2.2.1, h.2.2.2.2⟩

/-- Claim C9: after a successful node commit with a publisher configured,
a failing URL signing or event publication makes `FinishUpload` return
that error immediately: the state is exactly the committed state (staging
file and session record untouched, no cleanup, no blob write, no
propagation), and nothing is logged. -/
theorem finishUpload_pubfail_C9 (env : FinishEnv) (s : UploadState)
    (c : List Nat) (e : Err) (hbin : s.binFile = some c)
    (hs1 : s.checksumSHA1 = "") (hs2 : s.checksumMD5 = "")
    (hs3 : s.checksumADLER32 = "") (hcn : env.createNodeErr = none)
    (hpub : s.pubConfigured = true)
    (hfail : env.urlResult = Except.error e ∨
      (env.publishErr = some e ∧ ∃ u, env.urlResult = Except.ok u)) :
    finishUpload env s =
      (some e,
       { s with nodeOnDisk := some (digestAttrs env c), memNodeSet := true },
       []) := by
  have hv : verifyChecksum s (env.sha1 c) (env.md5 c) (env.adler32 c) = none := by
    simp [verifyChecksum, hs1, hs2, hs3]
  rcases hfail with hurl | ⟨hpe, u, hurl⟩
  · simp [finishUpload, hbin, hv, hcn, finishPostCreate, hpub, hurl]
  · simp [finishUpload, hbin, hv, hcn, finishPostCreate, hpub, hurl, hpe]

/-- Witness for C9 at concrete inputs: a failing token signing. -/
theorem finishUpload_pubfail_C9_wit :
    finishUpload
      { sha1 := fun _ => [1], md5 := fun _ => [2], adler32 := fun _ => [3],
        urlResult := Except.error (Err.other "sign") }
      { pubConfigured := true } =
    (some (Err.other "sign"),
     { pubConfigured := true,
       nodeOnDisk := some (digestAttrs
         { sha1 := fun _ => [1], md5 := fun _ => [2], adler32 := fun _ => [3],
           urlResult := Except.error (Err.other "sign") } []),
       memNodeSet := true },
     []) := by
  exact finishUpload_pubfail_C9
    { sha1 := fun _ => [1], md5 := fun _ => [2], adler32 := fun _ => [3],
      urlResult := Except.error (Err.other "sign") }
    { pubConfigured := true } [] (Err.other "sign")
    rfl rfl rfl rfl rfl rfl (Or.inl rfl)

/-- Claim C10: when the staging file cannot be opened at the start of
`FinishUpload`, the call does not fail at that point: the open failure is
only logged, the digests are computed over the empty stream, and with no
declared checksum expectation the node is committed carrying the
empty-stream digest attributes (here shown in async mode without a
publisher, where the call then returns the propagate outcome). -/
theorem finishUpload_openfail_C10 (env : FinishEnv) (s : UploadState)
    (hbin : s.binFile = none)
    (hs1 : s.checksumSHA1 = "") (hs2 : s.checksumMD5 = "")
    (hs3 : s.checksumADLER32 = "") (hcn : env.createNodeErr = none)
    (hpub : s.pubConfigured = false) (hasync : s.async = true) :
    finishUpload env s =
      (env.propagateErr,
       { s with nodeOnDisk := some (digestAttrs env []), memNodeSet := true,
                propagateCalled := true },
       [LogEntry.openBinFailed, LogEntry.copyChecksumsFailed])
  ∧ attrGet (digestAttrs env []) (csPfx ++ "sha1") = some (env.sha1 [])
  ∧ attrGet (digestAttrs env []) (csPfx ++ "md5") = some (env.md5 [])
  ∧ attrGet (digestAttrs env []) (csPfx ++ "adler32") = some (env.adler32 []) := by
  have hv : verifyChecksum s (env.sha1 []) (env.md5 []) (env.adler32 []) = none := by
    simp [verifyChecksum, hs1, hs2, hs3]
  refine ⟨?_, ?_, ?_, ?_⟩
  · simp [finishUpload, hbin, hv, hcn, finishPostCreate, hpub, finishTail, hasync]
  · simp [digestAttrs, attrGet]
  · have hne : csPfx ++ "sha1" ≠ csPfx ++ "md5" := by decide
    simp [digestAttrs, attrGet, hne]
  · have hne1 : csPfx ++ "sha1" ≠ csPfx ++ "adler32" := by decide
    have hne2 : csPfx ++ "md5" ≠ csPfx ++ "adler32" := by decide
    simp [digestAttrs, attrGet, hne1, hne2]

/-- Witness for C10 at concrete inputs. -/
theorem finishUpload_openfail_C10_wit :
    (finishUpload
        { sha1 := fun _ => [1], md5 := fun _ => [2], adler32 := fun _ => [3] }
        { binFile := none }).1 = none
  ∧ (finishUpload
        { sha1 := fun _ => [1], md5 := fun _ => [2], adler32 := fun _ => [3] }
        { binFile := none }).2.2 =
      [LogEntry.openBinFailed, LogEntry.copyChecksumsFailed]
  ∧ attrGet (digestAttrs
        { sha1 := fun _ => [1], md5 := fun _ => [2], adler32 := fun _ => [3] } [])
      (csPfx ++ "sha1") = some [1] := by
  have h := finishUpload_openfail_C10
    { sha1 := fun _ => [1], md5 := fun _ => [2], adler32 := fun _ => [3] }
    { binFile := none } rfl rfl rfl rfl rfl rfl rfl
  refine ⟨?_, ?_, ?_⟩
  · rw [h.1]
  · rw [h.1]
  · exact h.2.1

end Upload
